import Mathlib

/- Verification development for the Mathieu-eigenexpansion advection-diffusion
notebooks: shallow embedding of the notebook-level numerics (parameter cells,
guard cells, the evolve_ds IVP synthesis loop, and the ellipse-approximation
curve fits) together with a model, written from the design document, of the
branch-tracking pass of the external eigensystem solver. -/

set_option maxHeartbeats 1000000

namespace AdvDiff

/- ## Eigenvalue branch tracking (modelled from the spec) -/

/-- Eigenvalues as exact complex rationals, re and im components. -/
abbrev GC : Type := ℚ × ℚ

/-- Modelled from the spec: squared complex-plane distance used by the
nearest-neighbor branch matching of the external eigensystem solver
(the mathieu_functions package is not part of this repository). -/
def dist2 (z w : GC) : ℚ := (z.1 - w.1) ^ 2 + (z.2 - w.2) ^ 2

/-- Modelled from the spec: among the not-yet-matched eigenvalues of the
current q sample, pick the one nearest (in the complex plane) to the previous
sample of the branch being continued, returning it with the remaining pool.
Ties resolve to the earliest candidate. -/
def pickNearest (p : GC) : List GC → Option (GC × List GC)
  | [] => none
  | z :: rest =>
    match pickNearest p rest with
    | none => some (z, [])
    | some (w, others) =>
      if dist2 p z ≤ dist2 p w then some (z, rest) else some (w, z :: others)

/-- Modelled from the spec: one continuation step of the solver, labelling the
current q sample by matching each branch of the previous labelled sample to
its nearest neighbor among the current raw eigenvalues. -/
def matchStep : List GC → List GC → List GC
  | [], _ => []
  | p :: ps, cur =>
    match pickNearest p cur with
    | none => []
    | some (w, rest) => w :: matchStep ps rest

/-- Ascending order of real parts, the zero-q limit ordering a0 < a2 < a4. -/
def reLE (a b : GC) : Prop := a.1 ≤ b.1

instance : DecidableRel reLE := fun a b => inferInstanceAs (Decidable (a.1 ≤ b.1))

instance : IsTotal GC reLE := ⟨fun a b => le_total a.1 b.1⟩

instance : IsTrans GC reLE := ⟨fun _ _ _ h1 h2 => le_trans h1 h2⟩

/-- Sort one q sample of eigenvalues into the zero-q ascending order. -/
def sortByRe (l : List GC) : List GC := List.insertionSort reLE l

/-- Modelled from the spec: sequential continuation pass over the remaining q
samples, each labelled from the previous labelled sample. -/
def eigTrackGo : List GC → List (List GC) → List (List GC)
  | _, [] => []
  | prev, c :: cs => matchStep prev c :: eigTrackGo (matchStep prev c) cs

/-- Modelled from the spec: the solver labels a batch of per-q eigenvalue lists
(batch ordered by increasing magnitude of q) by sorting the first sample into
the zero-q ascending order and continuing every later sample by
nearest-neighbor matching against the previous one. -/
def eigTrack : List (List GC) → List (List GC)
  | [] => []
  | v :: vs => sortByRe v :: eigTrackGo (sortByRe v) vs

/-- Concrete two-sample batch with a conjugate pair at the second sample,
used to evaluate the tracking pass. -/
def C1batch : List (List GC) := [[(4, 0), (0, 0)], [(2, 1), (2, -1)]]

/- ## Notebook parameter cells -/

/-- The truncation orders the five notebooks pass to A_coefficients, in file
order: the ellipse notebook (M = 25), the Gaussian average notebook (N = 50),
the plane-shear notebook (M = 75), and the two single-mode animation
notebooks (N = 25 each). -/
def truncationOrders : List ℕ := [25, 50, 75, 25, 25]

/-- The closed parity selector set of A_coefficients. -/
inductive MathieuParity where
  | even : MathieuParity
  | odd : MathieuParity
deriving DecidableEq

/-- The closed period selector set of A_coefficients: period pi or 2 pi. -/
inductive MathieuPeriod where
  | one : MathieuPeriod
  | two : MathieuPeriod
deriving DecidableEq

/-- The parity and period selectors at the five A_coefficients call sites. -/
def A_coefficients_calls : List (MathieuParity × MathieuPeriod) :=
  [(MathieuParity.even, MathieuPeriod.one), (MathieuParity.even, MathieuPeriod.one),
   (MathieuParity.even, MathieuPeriod.one), (MathieuParity.even, MathieuPeriod.one),
   (MathieuParity.even, MathieuPeriod.one)]

/-- Wavenumber array of the Gaussian average notebook:
np.arange(0, Nk/alpha, 1/alpha) with Nk = 50, alpha = 25. -/
def K_g1 (j : ℕ) : ℚ := j * (1 / 25)

/-- Mathieu parameter batch of the Gaussian average notebook:
Q = (1j) * 2 * K * Pe with Pe = 200, as (re, im) pairs. -/
def Q_g1 (j : ℕ) : GC := (0, 2 * K_g1 j * 200)

/-- Wavenumber array of the plane-shear notebook:
np.arange(0, N/alpha, 1/alpha) with N = 50, alpha = 2. -/
def K_p2 (j : ℕ) : ℚ := j * (1 / 2)

/-- Mathieu parameter batch of the plane-shear notebook:
Q = (1j) * 2 * K / eps with eps = 0.05. -/
def Q_p2 (j : ℕ) : GC := (0, 2 * K_p2 j / (1 / 20))

/-- Wavenumber array of the ellipse notebook:
np.linspace(0, N/alpha, 1000) with N = 70, alpha = 2. -/
def K_ell (j : ℕ) : ℚ := 35 * j / 999

/-- Mathieu parameter batch of the ellipse notebook:
Q = (1j) * K_test / (8 * eps) with eps = 0.03. -/
def Q_ell (j : ℕ) : GC := (0, K_ell j / (8 * (3 / 100)))

/-- The wavenumber-to-q mapping as the spec words it: q = i * 2k / eps. -/
def qmapSpec (eps k : ℚ) : GC := (0, 2 * k / eps)

/- ## The qf guard cell -/

/-- The message of the Warning raised by the guard cells. -/
def qfWarningMsg : String :=
  "Change either epsilon or k, to reduce the size of q. The current code only works for values q>1000i"

/-- The parameter-guard cell: raise Warning when qf > 1000, else fall through
to the A_coefficients call. -/
def qf_guard (qf : ℚ) : Except String Unit :=
  if 1000 < qf then Except.error qfWarningMsg else Except.ok ()

/- ## Hard-coded ellipse constants -/

/-- gamma = [2, 26, 82] hard-coded in the ellipse notebook. -/
def gammaZ : Fin 3 → ℤ := ![2, 26, 82]

/-- Delta = [2, 10, 18] hard-coded in the ellipse notebook. -/
def DeltaZ : Fin 3 → ℤ := ![2, 10, 18]

noncomputable section

/- ## Ellipse approximation of the eigenvalue pairs -/

/-- Imaginary parts of the hard-coded exceptional points
ql = [1.466466i, 16.466466i, 47.797797i]. -/
def qlIm : Fin 3 → ℝ := ![1.466466, 16.466466, 47.797797]

/-- The hard-coded exceptional points of the ellipse notebook. -/
def ql (l : Fin 3) : ℂ := (qlIm l : ℂ) * Complex.I

/-- gamma as a complex constant. -/
def gammaC (l : Fin 3) : ℂ := (gammaZ l : ℂ)

/-- Delta as a complex constant. -/
def DeltaC (l : Fin 3) : ℂ := (DeltaZ l : ℂ)

/-- Principal-branch complex square root, modelling np.sqrt on complex input. -/
def csqrt (z : ℂ) : ℂ := z ^ ((1 : ℂ) / 2)

/-- Region I lower branch of the ellipse fit:
gamma[l] - (Delta[l]/ql[l].imag) * sqrt(-(ql[l])**2 + q**2). -/
def aI_lower (l : Fin 3) (q : ℂ) : ℂ :=
  gammaC l - DeltaC l / (qlIm l : ℂ) * csqrt (-(ql l) ^ 2 + q ^ 2)

/-- Region I upper branch of the ellipse fit. -/
def aI_upper (l : Fin 3) (q : ℂ) : ℂ :=
  gammaC l + DeltaC l / (qlIm l : ℂ) * csqrt (-(ql l) ^ 2 + q ^ 2)

/-- First pair, region II lower branch:
a0cl1 = -(Delta[0]/ql[0].imag) * sqrt(-(ql[0])**2 + Ql1**2). -/
def a0cl1 (q : ℂ) : ℂ := -(DeltaC 0 / (qlIm 0 : ℂ)) * csqrt (-(ql 0) ^ 2 + q ^ 2)

/-- First pair, region II upper branch. -/
def a2cl1 (q : ℂ) : ℂ := DeltaC 0 / (qlIm 0 : ℂ) * csqrt (-(ql 0) ^ 2 + q ^ 2)

/-- First pair, region III lower branch:
a0cl2 = -2 * sqrt(Ql2**2) + (4*l + 1) * sqrt(2*Ql2) at l = 0. -/
def a0cl2 (q : ℂ) : ℂ := -2 * csqrt (q ^ 2) + (4 * (0 : ℂ) + 1) * csqrt (2 * q)

/-- First pair, region III upper branch. -/
def a2cl2 (q : ℂ) : ℂ := 2 * csqrt (q ^ 2) - (4 * (0 : ℂ) + 1) * csqrt (2 * q)

/-- Second pair, region II lower branch:
a4cl1 = -1.95 * (Delta[1]/ql[1].imag) * sqrt(-(ql[1])**2 + Ql1**2). -/
def a4cl1 (q : ℂ) : ℂ :=
  -(1.95 : ℂ) * (DeltaC 1 / (qlIm 1 : ℂ)) * csqrt (-(ql 1) ^ 2 + q ^ 2)

/-- Second pair, region II upper branch. -/
def a6cl1 (q : ℂ) : ℂ :=
  (1.95 : ℂ) * (DeltaC 1 / (qlIm 1 : ℂ)) * csqrt (-(ql 1) ^ 2 + q ^ 2)

/-- Second pair, region III lower branch:
a4cl2 = -1.9 * sqrt(Ql2**2) + (4*l + 1) * sqrt(2*Ql2) at l = 1. -/
def a4cl2 (q : ℂ) : ℂ := -(1.9 : ℂ) * csqrt (q ^ 2) + (4 * (1 : ℂ) + 1) * csqrt (2 * q)

/-- Second pair, region III upper branch. -/
def a6cl2 (q : ℂ) : ℂ := (1.9 : ℂ) * csqrt (q ^ 2) - (4 * (1 : ℂ) + 1) * csqrt (2 * q)

/-- Third pair, region II lower branch:
a8cl1 = -2.5 * (Delta[2]/ql[2].imag) * sqrt(-(ql[2])**2 + Ql1**2). -/
def a8cl1 (q : ℂ) : ℂ :=
  -(2.5 : ℂ) * (DeltaC 2 / (qlIm 2 : ℂ)) * csqrt (-(ql 2) ^ 2 + q ^ 2)

/-- Third pair, region II upper branch. -/
def a10cl1 (q : ℂ) : ℂ :=
  (2.5 : ℂ) * (DeltaC 2 / (qlIm 2 : ℂ)) * csqrt (-(ql 2) ^ 2 + q ^ 2)

/-- Third pair, region III lower branch:
a8cl2 = -1.75 * sqrt(Ql2**2) + (4*l + 1) * sqrt(2*Ql2) at l = 2. -/
def a8cl2 (q : ℂ) : ℂ := -(1.75 : ℂ) * csqrt (q ^ 2) + (4 * (2 : ℂ) + 1) * csqrt (2 * q)

/-- Third pair, region III upper branch. -/
def a10cl2 (q : ℂ) : ℂ := (1.75 : ℂ) * csqrt (q ^ 2) - (4 * (2 : ℂ) + 1) * csqrt (2 * q)

/-- Generic region II lower branch with an explicit correction multiplier m. -/
def regionII_lower (m : ℂ) (l : Fin 3) (q : ℂ) : ℂ :=
  -m * (DeltaC l / (qlIm l : ℂ)) * csqrt (-(ql l) ^ 2 + q ^ 2)

/-- Generic region III lower branch with an explicit correction coefficient c. -/
def regionIII_lower (c : ℂ) (l : Fin 3) (q : ℂ) : ℂ :=
  -c * csqrt (q ^ 2) + (4 * ((l : ℕ) : ℂ) + 1) * csqrt (2 * q)

/- ## The evolve_ds IVP synthesis -/

/-- The inner r-sum of evolve_ds (one wavenumber k, one time index i):
sum over r of 2 * As[A2r][k, 0] * CE[r][k, y, x] *
exp(-(0.25 * As[a2r][k] + K[k]**2) * t[i]). -/
def evolve_CE2n (R : ℕ) (A av : ℕ → ℕ → ℂ) (CE : ℕ → ℕ → ℕ → ℕ → ℂ)
    (K tg : ℕ → ℂ) (i k y x : ℕ) : ℂ :=
  ∑ r ∈ Finset.range R,
    2 * A r k * CE r k y x * Complex.exp (-((0.25 : ℂ) * av r k + K k ^ 2) * tg i)

/-- COS[k] = np.exp(K[k] * X * (1j)), captured by evolve_ds from the notebook
scope. -/
def evolve_COS (K Xg : ℕ → ℂ) (k x : ℕ) : ℂ := Complex.exp (K k * Xg x * Complex.I)

/-- Theta slice values of the Gaussian average notebook evolve_ds:
T0 = np.sum(coeff, axis=0).real with coeff[k] = cn[k] * CE2n * COS[k]. -/
def evolve_ds1_T0 (Nk R : ℕ) (cn : ℕ → ℂ) (A av : ℕ → ℕ → ℂ)
    (CE : ℕ → ℕ → ℕ → ℕ → ℂ) (K Xg tg : ℕ → ℂ) (i y x : ℕ) : ℝ :=
  (∑ k ∈ Finset.range Nk,
    cn k * evolve_CE2n R A av CE K tg i k y x * evolve_COS K Xg k x).re

/-- Theta slice values of the plane-shear notebook evolve_ds:
T0 = (sigma**2) * np.sum(coeff, axis=0).real. -/
def evolve_ds2_T0 (σ : ℝ) (Nk R : ℕ) (cn : ℕ → ℂ) (A av : ℕ → ℕ → ℂ)
    (CE : ℕ → ℕ → ℕ → ℕ → ℂ) (K Xg tg : ℕ → ℂ) (i y x : ℕ) : ℝ :=
  σ ^ 2 * (∑ k ∈ Finset.range Nk,
    cn k * evolve_CE2n R A av CE K tg i k y x * evolve_COS K Xg k x).re

/-- The IVP synthesis formula as the spec words it:
Re of the double sum over k and 2n of
cn[k] * 2 * A0_2n(q_k) * ce_2n(y; q_k) * exp(i k x) * exp(-(a_2n/4 + k**2) t). -/
def ivpTheta (Nk R : ℕ) (cn : ℕ → ℂ) (A av : ℕ → ℕ → ℂ)
    (CE : ℕ → ℕ → ℕ → ℕ → ℂ) (K Xg tg : ℕ → ℂ) (i y x : ℕ) : ℝ :=
  (∑ k ∈ Finset.range Nk, ∑ r ∈ Finset.range R,
    cn k * (2 * A r k) * CE r k y x * Complex.exp (K k * Xg x * Complex.I) *
      Complex.exp (-(av r k / 4 + K k ^ 2) * tg i)).re

/- ## The evolve_ds state and write loop -/

/-- The arguments evolve_ds receives (coefficient tables, precomputed Mathieu
function values, wavenumbers, Fourier coefficients, grids and times), plus the
number nt of time steps. -/
structure EvolveArgs where
  Nk : ℕ
  R : ℕ
  cn : ℕ → ℂ
  A : ℕ → ℕ → ℂ
  av : ℕ → ℕ → ℂ
  CE : ℕ → ℕ → ℕ → ℕ → ℂ
  K : ℕ → ℂ
  Xg : ℕ → ℂ
  tg : ℕ → ℂ
  nt : ℕ

/-- The Theta slice the loop body computes at time index i. -/
def evolve_T0 (e : EvolveArgs) (i : ℕ) : ℕ → ℕ → ℝ :=
  fun y x => evolve_ds1_T0 e.Nk e.R e.cn e.A e.av e.CE e.K e.Xg e.tg i y x

/-- The evolve_ds loop as explicit state passing: the dataset starts as nt
all-NaN slices (modelled as none) and iteration i writes slice i; the write
trace records each written time index in order. -/
def dsWriteLoop (S : Type) (T0 : ℕ → S) (nt : ℕ) : ℕ → List (Option S) × List ℕ
  | 0 => (List.replicate nt none, [])
  | k + 1 =>
    ((dsWriteLoop S T0 nt k).1.set k (some (T0 k)), (dsWriteLoop S T0 nt k).2 ++ [k])

/-- The full loop of evolve_ds over all nt time indices. -/
def evolve_ds_loop (S : Type) (T0 : ℕ → S) (nt : ℕ) : List (Option S) × List ℕ :=
  dsWriteLoop S T0 nt nt

/-- evolve_ds as a state transformer: it returns its arguments (which it only
reads) together with the freshly allocated, fully written dataset and the
write trace. -/
def evolve_ds_run (e : EvolveArgs) :
    EvolveArgs × (List (Option (ℕ → ℕ → ℝ)) × List ℕ) :=
  (e, evolve_ds_loop (ℕ → ℕ → ℝ) (evolve_T0 e) e.nt)

end

/- ## Theorems -/

/-- Claim C3 counterexample: the ellipse notebook passes the odd truncation
order M = 25 to A_coefficients, so not every passed order is even. -/
theorem C3_counterexample : 25 ∈ truncationOrders ∧ 25 % 2 = 1 := by decide

/-- Claim C3 (amended): every truncation order the notebooks pass to
A_coefficients is positive, but only the Gaussian average notebook passes an
even one (N = 50); the other four call sites pass odd orders, so the
domain-error branch for an odd order would be reachable there. -/
theorem C3_truncation_orders :
    truncationOrders.all (fun m => decide (0 < m)) = true ∧
    truncationOrders.filter (fun m => m % 2 = 0) = [50] ∧
    truncationOrders.length = 5 := by decide

/-- Claim C5: all five A_coefficients call sites pass the even parity and
period-pi selectors; the odd and period-2pi members are never exercised. -/
theorem C5_selector_calls :
    A_coefficients_calls.all
      (fun s => decide (s = (MathieuParity.even, MathieuPeriod.one))) = true ∧
    A_coefficients_calls.length = 5 := by decide

/-- Claim C9: the guard cell raises the Warning exactly when qf > 1000; for
qf less than or equal to 1000, including 1000 itself, it falls through to the
A_coefficients call. -/
theorem C9_qf_guard :
    (∀ qf : ℚ, qf_guard qf = Except.error qfWarningMsg ↔ 1000 < qf) ∧
    (∀ qf : ℚ, qf ≤ 1000 → qf_guard qf = Except.ok ()) ∧
    qf_guard 1000 = Except.ok () := by
  refine ⟨fun qf => ?_, fun qf h => ?_, ?_⟩
  · unfold qf_guard
    split_ifs with h <;> simp [h]
  · unfold qf_guard
    rw [if_neg (not_lt.mpr h)]
  · unfold qf_guard
    rw [if_neg (by norm_num)]

/-- Claim C9 witness: the guard at qf = 999 falls through, and at qf = 1001 it
raises exactly because 1000 < 1001. -/
theorem C9_qf_guard_witness :
    qf_guard 999 = Except.ok () ∧
    (qf_guard 1001 = Except.error qfWarningMsg ↔ 1000 < (1001 : ℚ)) :=
  ⟨C9_qf_guard.2.1 999 (by norm_num), C9_qf_guard.1 1001⟩

/-- Claim C10: the hard-coded constants satisfy the closed forms the notebook
states, Delta[l] = 8l + 2 and gamma[l] = 16l^2 + 8l + 2, for l = 0, 1, 2. -/
theorem C10_ellipse_constants :
    ∀ l : Fin 3,
      DeltaZ l = 8 * ((l : ℕ) : ℤ) + 2 ∧
      gammaZ l = 16 * ((l : ℕ) : ℤ) ^ 2 + 8 * ((l : ℕ) : ℤ) + 2 := by decide

/-- Claim C4 counterexample: the ellipse notebook maps its wavenumber array by
q = i * k / (8 eps), not by the claimed q = i * 2k / eps; the two differ
already at the second array entry. -/
theorem C4_counterexample : Q_ell 1 ≠ qmapSpec (3 / 100) (K_ell 1) := by
  intro hcontra
  unfold Q_ell K_ell qmapSpec at hcontra
  rw [Prod.mk.injEq] at hcontra
  norm_num at hcontra

/-- Claim C4 (amended): the two Gaussian notebooks map wavenumbers by
q = i * 2 k Pe, equivalently i * 2k/eps with eps = 1/Pe; the ellipse notebook
instead uses q = i * k / (8 eps). In all three, every entry is purely
imaginary and the batch magnitude strictly increases along the array. -/
theorem C4_q_mapping :
    (∀ j : ℕ, Q_g1 j = qmapSpec (1 / 200) (K_g1 j)) ∧
    (∀ j : ℕ, Q_p2 j = qmapSpec (1 / 20) (K_p2 j)) ∧
    (∀ j : ℕ, (Q_ell j).2 = K_ell j / (8 * (3 / 100))) ∧
    (∀ j : ℕ, (Q_g1 j).1 = 0 ∧ (Q_p2 j).1 = 0 ∧ (Q_ell j).1 = 0) ∧
    (∀ j j' : ℕ, j < j' →
      (Q_g1 j).2 < (Q_g1 j').2 ∧ (Q_p2 j).2 < (Q_p2 j').2 ∧
      (Q_ell j).2 < (Q_ell j').2) := by
  have h1 : ∀ m : ℕ, (Q_g1 m).2 = 16 * (m : ℚ) := by
    intro m
    unfold Q_g1 K_g1
    ring
  have h2 : ∀ m : ℕ, (Q_p2 m).2 = 20 * (m : ℚ) := by
    intro m
    unfold Q_p2 K_p2
    field_simp
    ring
  have h3 : ∀ m : ℕ, (Q_ell m).2 = 875 / 5994 * (m : ℚ) := by
    intro m
    unfold Q_ell K_ell
    field_simp
    ring
  refine ⟨fun j => ?_, fun j => ?_, fun j => rfl, fun j => ⟨rfl, rfl, rfl⟩,
    fun j j' h => ?_⟩
  · unfold Q_g1 qmapSpec K_g1
    refine Prod.ext rfl ?_
    field_simp
  · unfold Q_p2 qmapSpec K_p2
    refine Prod.ext rfl ?_
    field_simp
  · have hj : (j : ℚ) < (j' : ℚ) := by exact_mod_cast h
    refine ⟨?_, ?_, ?_⟩
    · rw [h1 j, h1 j']
      linarith
    · rw [h2 j, h2 j']
      linarith
    · rw [h3 j, h3 j']
      linarith

/-- Claim C4 witness: the Gaussian average notebook mapping at j = 3, and
strict magnitude growth between entries 1 and 2 of each batch. -/
theorem C4_q_mapping_witness :
    Q_g1 3 = qmapSpec (1 / 200) (K_g1 3) ∧
    ((Q_g1 1).2 < (Q_g1 2).2 ∧ (Q_p2 1).2 < (Q_p2 2).2 ∧
      (Q_ell 1).2 < (Q_ell 2).2) :=
  ⟨C4_q_mapping.1 3, C4_q_mapping.2.2.2.2 1 2 (by norm_num)⟩

/-- On a nonempty pool, pickNearest always returns a match. -/
theorem pickNearest_cons_some (p z : GC) (rest : List GC) :
    ∃ w others, pickNearest p (z :: rest) = some (w, others) := by
  cases hr : pickNearest p rest with
  | none => exact ⟨z, [], by simp [pickNearest, hr]⟩
  | some wr =>
    obtain ⟨w, others⟩ := wr
    by_cases hd : dist2 p z ≤ dist2 p w
    · exact ⟨z, rest, by simp [pickNearest, hr, hd]⟩
    · exact ⟨w, z :: others, by simp [pickNearest, hr, hd]⟩

/-- A successful pickNearest splits the pool into the match and the rest, and
the match is at minimal squared distance among the whole pool. -/
theorem pickNearest_sound (p : GC) :
    ∀ (l : List GC) (w : GC) (rest : List GC), pickNearest p l = some (w, rest) →
      l.Perm (w :: rest) ∧ ∀ z ∈ l, dist2 p w ≤ dist2 p z := by
  intro l
  induction l with
  | nil => intro w rest h; simp [pickNearest] at h
  | cons z r ih =>
    intro w rest h
    cases hr : pickNearest p r with
    | none =>
      have hrnil : r = [] := by
        cases r with
        | nil => rfl
        | cons y ys =>
          obtain ⟨w0, o0, hw0⟩ := pickNearest_cons_some p y ys
          rw [hw0] at hr
          exact Option.noConfusion hr
      subst hrnil
      simp only [pickNearest, Option.some.injEq, Prod.mk.injEq] at h
      obtain ⟨rfl, rfl⟩ := h
      refine ⟨List.Perm.refl _, ?_⟩
      intro z hz
      simp only [List.mem_singleton] at hz
      subst hz
      exact le_refl _
    | some wr =>
      obtain ⟨w0, o0⟩ := wr
      have hs := ih w0 o0 hr
      simp only [pickNearest, hr] at h
      by_cases hd : dist2 p z ≤ dist2 p w0
      · rw [if_pos hd] at h
        simp only [Option.some.injEq, Prod.mk.injEq] at h
        obtain ⟨rfl, rfl⟩ := h
        refine ⟨List.Perm.refl _, ?_⟩
        intro z' hz'
        rcases List.mem_cons.mp hz' with h1 | h2
        · subst h1
          exact le_refl _
        · exact le_trans hd (hs.2 z' h2)
      · rw [if_neg hd] at h
        simp only [Option.some.injEq, Prod.mk.injEq] at h
        obtain ⟨rfl, rfl⟩ := h
        constructor
        · exact (hs.1.cons z).trans (List.Perm.swap w0 z o0)
        · intro z' hz'
          rcases List.mem_cons.mp hz' with h1 | h2
          · subst h1
            exact le_of_lt (lt_of_not_ge hd)
          · exact hs.2 z' h2

/-- The matching step relabels a full sample: on pools of the same size it
returns a permutation of the current raw eigenvalues. -/
theorem matchStep_perm :
    ∀ prev cur : List GC, prev.length = cur.length → (matchStep prev cur).Perm cur := by
  intro prev
  induction prev with
  | nil =>
    intro cur h
    have hc : cur = [] := List.eq_nil_of_length_eq_zero h.symm
    subst hc
    simp [matchStep]
  | cons p ps ih =>
    intro cur h
    cases cur with
    | nil => exact absurd h (by simp)
    | cons y ys =>
      obtain ⟨w, others, hw⟩ := pickNearest_cons_some p y ys
      have hsound := pickNearest_sound p (y :: ys) w others hw
      simp only [matchStep, hw]
      have hlen : others.length = ys.length := by
        have hl := hsound.1.length_eq
        simp only [List.length_cons] at hl
        omega
      have hps : ps.length = others.length := by
        simp only [List.length_cons] at h
        omega
      exact ((ih others hps).cons w).trans hsound.1.symm

/-- The continuation pass keeps each q sample a permutation of its raw
eigenvalue list. -/
theorem eigTrackGo_forall2 (n : ℕ) :
    ∀ (batch : List (List GC)) (prev : List GC), prev.length = n →
      (∀ row ∈ batch, row.length = n) →
      List.Forall₂ (fun a b => a.Perm b) (eigTrackGo prev batch) batch := by
  intro batch
  induction batch with
  | nil => intro prev _ _; exact List.Forall₂.nil
  | cons c cs ih =>
    intro prev hp hrows
    have hc : c.length = n := hrows c (by simp)
    have hperm : (matchStep prev c).Perm c := matchStep_perm prev c (by rw [hp, hc])
    refine List.Forall₂.cons hperm (ih (matchStep prev c) ?_ ?_)
    · rw [hperm.length_eq, hc]
    · intro row hr
      exact hrows row (by simp [hr])

/-- Claim C1: on a batch of per-q eigenvalue lists ordered by increasing
magnitude of q, the tracking pass labels every sample with a permutation of
its own eigenvalues; the first sample is put into the ascending zero-q
ordering, every later sample is labelled by nearest-neighbor continuation
from the previous one, and each matched branch is at minimal complex-plane
distance among the candidates still available, so the harmonic labels are
carried consistently through the batch, including through coalescence. -/
theorem C1_eig_branch_tracking (batch : List (List GC)) (n : ℕ)
    (hlen : ∀ row ∈ batch, row.length = n) :
    List.Forall₂ (fun a b => a.Perm b) (eigTrack batch) batch ∧
    (∀ v vs, batch = v :: vs →
      eigTrack batch = sortByRe v :: eigTrackGo (sortByRe v) vs ∧
      List.Sorted reLE (sortByRe v)) ∧
    (∀ (p : GC) (l : List GC) (w : GC) (rest : List GC),
      pickNearest p l = some (w, rest) →
      l.Perm (w :: rest) ∧ ∀ z ∈ l, dist2 p w ≤ dist2 p z) := by
  refine ⟨?_, ?_, fun p l w rest h => pickNearest_sound p l w rest h⟩
  · cases batch with
    | nil => exact List.Forall₂.nil
    | cons v vs =>
      have hv : v.length = n := hlen v (by simp)
      have hperm : (sortByRe v).Perm v := List.perm_insertionSort reLE v
      refine List.Forall₂.cons hperm (eigTrackGo_forall2 n vs (sortByRe v) ?_ ?_)
      · rw [hperm.length_eq, hv]
      · intro row hr
        exact hlen row (by simp [hr])
  · intro v vs hb
    subst hb
    exact ⟨rfl, List.sorted_insertionSort reLE v⟩

/-- Claim C1 witness: the tracking pass on a concrete two-sample batch whose
second sample is a conjugate pair. -/
theorem C1_eig_branch_tracking_witness :
    (∀ row ∈ C1batch, row.length = 2) ∧
    (List.Forall₂ (fun a b => a.Perm b) (eigTrack C1batch) C1batch ∧
     (∀ v vs, C1batch = v :: vs →
       eigTrack C1batch = sortByRe v :: eigTrackGo (sortByRe v) vs ∧
       List.Sorted reLE (sortByRe v)) ∧
     (∀ (p : GC) (l : List GC) (w : GC) (rest : List GC),
       pickNearest p l = some (w, rest) →
       l.Perm (w :: rest) ∧ ∀ z ∈ l, dist2 p w ≤ dist2 p z)) :=
  ⟨by decide, C1_eig_branch_tracking C1batch 2 (by decide)⟩

/-- Claim C6: at the documented first exceptional point q = 1.466466i the two
branches of the first eigenvalue pair coalesce at the hard-coded center
gamma[0] = 2: both branch values equal 2, they are complex conjugates of each
other, and their common real part is 2. The eigenvalues of harmonics 0 and 2
are modelled by the repository's own ellipse parametrization, the external
solver not being part of the sources. -/
theorem C6_first_exceptional_point :
    ql 0 = ((1.466466 : ℝ) : ℂ) * Complex.I ∧
    gammaZ 0 = 2 ∧
    aI_lower 0 (ql 0) = 2 ∧
    aI_upper 0 (ql 0) = 2 ∧
    (starRingEnd ℂ) (aI_lower 0 (ql 0)) = aI_upper 0 (ql 0) ∧
    (aI_lower 0 (ql 0)).re = 2 := by
  have hsq : csqrt (-(ql 0) ^ 2 + (ql 0) ^ 2) = 0 := by
    rw [show -(ql 0) ^ 2 + (ql 0) ^ 2 = 0 by ring]
    unfold csqrt
    exact Complex.zero_cpow (by norm_num)
  have hγ : gammaC 0 = 2 := by
    unfold gammaC gammaZ
    norm_num
  have hlow : aI_lower 0 (ql 0) = 2 := by
    unfold aI_lower
    rw [hsq, mul_zero, sub_zero, hγ]
  have hup : aI_upper 0 (ql 0) = 2 := by
    unfold aI_upper
    rw [hsq, mul_zero, add_zero, hγ]
  refine ⟨?_, by decide, hlow, hup, ?_, ?_⟩
  · simp [ql, qlIm]
  · rw [hlow, hup, show (2 : ℂ) = ((2 : ℝ) : ℂ) from by norm_num,
      Complex.conj_ofReal]
  · rw [hlow, show (2 : ℂ) = ((2 : ℝ) : ℂ) from by norm_num, Complex.ofReal_re]

/-- Claim C7: the hand-tuned correction multipliers of the past-exceptional-
point curve fits are exactly 1.95 (region II) and 1.9 (region III) for the
second eigenvalue pair and 2.5 and 1.75 for the third pair, while the first
pair fits the generic templates with multiplier exactly 1 in region II and
coefficient exactly 2 in region III; each upper branch is the negation of its
lower branch. -/
theorem C7_correction_multipliers (q : ℂ) :
    a0cl1 q = regionII_lower 1 0 q ∧
    a4cl1 q = regionII_lower 1.95 1 q ∧
    a8cl1 q = regionII_lower 2.5 2 q ∧
    a0cl2 q = regionIII_lower 2 0 q ∧
    a4cl2 q = regionIII_lower 1.9 1 q ∧
    a8cl2 q = regionIII_lower 1.75 2 q ∧
    a2cl1 q = -a0cl1 q ∧
    a6cl1 q = -a4cl1 q ∧
    a10cl1 q = -a8cl1 q ∧
    a2cl2 q = -a0cl2 q ∧
    a6cl2 q = -a4cl2 q ∧
    a10cl2 q = -a8cl2 q := by
  refine ⟨?_, ?_, ?_, ?_, ?_, ?_, ?_, ?_, ?_, ?_, ?_, ?_⟩ <;>
    simp only [a0cl1, a2cl1, a0cl2, a2cl2, a4cl1, a6cl1, a4cl2, a6cl2, a8cl1,
      a10cl1, a8cl2, a10cl2, regionII_lower, regionIII_lower] <;>
    (try push_cast [Fin.val_zero, Fin.val_one, Fin.val_two]) <;>
    try ring

/-- The k-sum computed by the evolve_ds loop body equals the double sum of the
IVP synthesis formula. -/
theorem evolve_sum_eq (Nk R : ℕ) (cn : ℕ → ℂ) (A av : ℕ → ℕ → ℂ)
    (CE : ℕ → ℕ → ℕ → ℕ → ℂ) (K Xg tg : ℕ → ℂ) (i y x : ℕ) :
    (∑ k ∈ Finset.range Nk,
      cn k * evolve_CE2n R A av CE K tg i k y x * evolve_COS K Xg k x) =
    ∑ k ∈ Finset.range Nk, ∑ r ∈ Finset.range R,
      cn k * (2 * A r k) * CE r k y x * Complex.exp (K k * Xg x * Complex.I) *
        Complex.exp (-(av r k / 4 + K k ^ 2) * tg i) := by
  refine Finset.sum_congr rfl fun k _ => ?_
  unfold evolve_CE2n evolve_COS
  rw [Finset.mul_sum, Finset.sum_mul]
  refine Finset.sum_congr rfl fun r _ => ?_
  rw [show -((0.25 : ℂ) * av r k + K k ^ 2) * tg i =
      -(av r k / 4 + K k ^ 2) * tg i from by
    rw [show (0.25 : ℂ) = 1 / 4 from by norm_num]
    ring]
  ring

/-- Claim C2 (amended): the Gaussian average notebook evolve_ds computes at
every time index exactly the real part of the double sum of the IVP synthesis
formula, while the plane-shear notebook evolve_ds computes sigma^2 times that
real part. -/
theorem C2_evolve_ds_theta (Nk R : ℕ) (cn : ℕ → ℂ) (A av : ℕ → ℕ → ℂ)
    (CE : ℕ → ℕ → ℕ → ℕ → ℂ) (K Xg tg : ℕ → ℂ) (σ : ℝ) (i y x : ℕ) :
    evolve_ds1_T0 Nk R cn A av CE K Xg tg i y x =
      ivpTheta Nk R cn A av CE K Xg tg i y x ∧
    evolve_ds2_T0 σ Nk R cn A av CE K Xg tg i y x =
      σ ^ 2 * ivpTheta Nk R cn A av CE K Xg tg i y x := by
  unfold evolve_ds1_T0 evolve_ds2_T0 ivpTheta
  rw [evolve_sum_eq]
  exact ⟨rfl, rfl⟩

/-- Claim C2 counterexample: with sigma = 1/2 and a one-wavenumber,
one-harmonic coefficient table of ones (zero eigenvalue, zero wavenumber,
zero time), the plane-shear evolve_ds returns 1/2 while the formula of the
claim gives 2, so the claim fails on the plane-shear notebook version. -/
theorem C2_counterexample :
    evolve_ds2_T0 (1 / 2) 1 1 (fun _ => 1) (fun _ _ => 1) (fun _ _ => 0)
      (fun _ _ _ _ => 1) (fun _ => 0) (fun _ => 0) (fun _ => 0) 0 0 0 ≠
    ivpTheta 1 1 (fun _ => 1) (fun _ _ => 1) (fun _ _ => 0)
      (fun _ _ _ _ => 1) (fun _ => 0) (fun _ => 0) (fun _ => 0) 0 0 0 := by
  unfold evolve_ds2_T0 ivpTheta evolve_CE2n evolve_COS
  simp only [Finset.sum_range_one]
  norm_num [Complex.exp_zero]

/-- Setting the element right after a prefix writes into the suffix. -/
theorem list_set_at_append {α : Type} (l₁ l₂ : List α) (a : α) (n : ℕ)
    (h : n = l₁.length) : (l₁ ++ l₂).set n a = l₁ ++ l₂.set 0 a := by
  subst h
  induction l₁ with
  | nil => rfl
  | cons x xs ihx =>
    show x :: ((xs ++ l₂).set xs.length a) = x :: (xs ++ l₂.set 0 a)
    rw [ihx]

/-- Unrolling the write loop: after k of the nt iterations the first k slices
hold their computed values, the remaining slices are still unwritten, and the
trace lists exactly the indices written so far, in order. -/
theorem dsWriteLoop_spec (S : Type) (T0 : ℕ → S) (nt : ℕ) :
    ∀ k, k ≤ nt →
      (dsWriteLoop S T0 nt k).1 =
        ((List.range k).map fun i => some (T0 i)) ++
          List.replicate (nt - k) (none : Option S) ∧
      (dsWriteLoop S T0 nt k).2 = List.range k := by
  intro k
  induction k with
  | zero => intro _; simp [dsWriteLoop]
  | succ k ih =>
    intro hk
    obtain ⟨h1, h2⟩ := ih (Nat.le_of_succ_le hk)
    constructor
    · show (dsWriteLoop S T0 nt k).1.set k (some (T0 k)) = _
      rw [h1, show nt - k = (nt - (k + 1)) + 1 from by omega, List.replicate_succ,
        list_set_at_append _ _ _ k (by simp)]
      simp [List.range_succ]
    · show (dsWriteLoop S T0 nt k).2 ++ [k] = _
      rw [h2, List.range_succ]

/-- Claim C8: evolve_ds returns its arguments unchanged, the returned dataset
is the freshly allocated one with every time slice written to its computed
Theta value, and the write trace covers each time index exactly once. -/
theorem C8_evolve_ds_frame (e : EvolveArgs) :
    (evolve_ds_run e).1 = e ∧
    (evolve_ds_run e).2.1 = (List.range e.nt).map (fun i => some (evolve_T0 e i)) ∧
    (evolve_ds_run e).2.2 = List.range e.nt ∧
    (List.range e.nt).Nodup := by
  obtain ⟨h1, h2⟩ := dsWriteLoop_spec (ℕ → ℕ → ℝ) (evolve_T0 e) e.nt e.nt (le_refl _)
  refine ⟨rfl, ?_, h2, List.nodup_range e.nt⟩
  show (dsWriteLoop (ℕ → ℕ → ℝ) (evolve_T0 e) e.nt e.nt).1 = _
  rw [h1]
  simp

end AdvDiff
